import Mathlib

/-!
Verification of the go-audiosocket voice-agent gateway against its
natural-language specification.  The Go sources are shallowly embedded:
strings are Lean `String`s (character lists), byte files are `List Nat`,
Go maps are association lists carrying their (unspecified) iteration
order, time instants are `Nat` milliseconds passed explicitly, and
fallible operations return `Except`/`Option`.
-/

/- ## Go string primitives (`strings` package operations used by the code) -/

/-- `strings.ToLower` restricted to the ASCII letters that occur in the
configuration keywords (Lean's `Char.toLower`). -/
def strToLower (s : String) : String := ⟨s.data.map Char.toLower⟩

/-- Character-list core of `strings.Contains`: the needle occurs as a
contiguous run inside the haystack (`strings.Contains(s, "")` is true). -/
def goContainsChars : List Char → List Char → Bool
  | [], needle => needle.isPrefixOf ([] : List Char)
  | c :: t, needle => needle.isPrefixOf (c :: t) || goContainsChars t needle

/-- `strings.Contains(hay, needle)`. -/
def strContains (hay needle : String) : Bool := goContainsChars hay.data needle.data

/-- `strings.TrimSpace`: remove leading and trailing whitespace. -/
def trimSpace (s : String) : String :=
  ⟨((s.data.dropWhile Char.isWhitespace).reverse.dropWhile Char.isWhitespace).reverse⟩

/-- Accumulator pass of the `strings.Fields` splitter: `acc` holds the
current token's characters in reverse. -/
def fieldsAux : List Char → List Char → List (List Char)
  | [], acc => if acc.isEmpty then [] else [acc.reverse]
  | c :: rest, acc =>
    if c.isWhitespace then
      if acc.isEmpty then fieldsAux rest [] else acc.reverse :: fieldsAux rest []
    else fieldsAux rest (c :: acc)

/-- Character-list core of `strings.Fields`: split around maximal
whitespace runs, keeping only the non-empty tokens. -/
def fieldsChars (l : List Char) : List (List Char) := fieldsAux l []

/-- `strings.Fields(s)`: the whitespace-separated tokens of `s`. -/
def fields (s : String) : List String := (fieldsChars s.data).map fun l => ⟨l⟩

/- ## Response classifier (internal/flow/responses.go) -/

/-- `flow.ResponseType` (`"positive"`, `"negative"`, `"unknown"`). -/
inductive ResponseType where
  | positive
  | negative
  | unknown
deriving DecidableEq

/-- The string value a `ResponseType` carries in Go. -/
def ResponseType.str : ResponseType → String
  | .positive => "positive"
  | .negative => "negative"
  | .unknown => "unknown"

/-- `flow.ResponseClassifier`: two keyword lists. -/
structure ResponseClassifier where
  positiveKeywords : List String
  negativeKeywords : List String
deriving DecidableEq

/-- `flow.NewResponseClassifier`: the default keyword sets, verbatim from
the source. -/
def NewResponseClassifier : ResponseClassifier where
  positiveKeywords :=
    ["yes", "yeah", "i have", "already have", "got one", "enrolled",
     "both parts", "part a", "part b", "have it", "i do", "sure",
     "maybe", "i think so", "probably", "i believe so"]
  negativeKeywords :=
    ["no", "don't have", "do not have", "not yet", "no coverage",
     "i don't", "i don't think so", "negative", "nope", "nah",
     "i don't want", "not interested", "leave me alone"]

/-- `ResponseClassifier.ClassifyResponse`: lower-case and trim, then check
negative keywords first, then positive, else unknown. -/
def ClassifyResponse (rc : ResponseClassifier) (text : String) : ResponseType :=
  let t := strToLower (trimSpace text)
  if rc.negativeKeywords.any (fun keyword => strContains t keyword) then .negative
  else if rc.positiveKeywords.any (fun keyword => strContains t keyword) then .positive
  else .unknown

/- ## Interrupt pattern matcher (unnamed audio package file, patterns) -/

/-- `audio.Settings`: pattern-matching settings from the YAML file. -/
structure Settings where
  caseSensitive : Bool
  partialWordMatch : Bool
  maxWordsBetween : Int
  reloadOnDetection : Bool
deriving DecidableEq

/-- `audio.Pattern`: a YAML pattern record; `type` selects which of the
payload fields is consulted. -/
structure Pattern where
  type : String
  phrases : List String
  words : List (List String)
  requiredWords : List (List String)
  wordGroups : List (List String)
deriving DecidableEq

/-- `audio.InterruptRule`. -/
structure InterruptRule where
  name : String
  description : String
  audioFile : String
  priority : Int
  patterns : List Pattern
deriving DecidableEq

/-- `audio.InterruptConfig`: the `interrupts` map is kept as the sequence
of its entries in the (unspecified) Go map iteration order. -/
structure InterruptConfig where
  interrupts : List (String × InterruptRule)
  settings : Settings
deriving DecidableEq

/-- `PatternMatcher.matchesExact`: any phrase, case-folded per the
settings, is a substring of the search text. -/
def matchesExact (s : Settings) (searchText : String) (phrases : List String) : Bool :=
  phrases.any fun phrase =>
    let checkPhrase := if s.caseSensitive then phrase else strToLower phrase
    strContains searchText checkPhrase

/-- `PatternMatcher.matchesCombo`: some inner word list has all of its
words as substrings of the search text. -/
def matchesCombo (s : Settings) (searchText : String) (wordLists : List (List String)) : Bool :=
  wordLists.any fun wordList =>
    wordList.all fun word =>
      let checkWord := if s.caseSensitive then word else strToLower word
      strContains searchText checkWord

/-- `PatternMatcher.matchesRequired`: every group has a word whose
settings-folded form occurs inside the lower-cased form of some
whitespace-separated token of the search text. -/
def matchesRequired (s : Settings) (searchText : String)
    (requiredGroups : List (List String)) : Bool :=
  let words := fields searchText
  requiredGroups.all fun group =>
    group.any fun requiredWord =>
      let checkWord := if s.caseSensitive then requiredWord else strToLower requiredWord
      words.any fun word => strContains (strToLower word) checkWord

/-- `PatternMatcher.matchesAlternative`: same loop structure as
`matchesRequired`, over the `word_groups` payload. -/
def matchesAlternative (s : Settings) (searchText : String)
    (wordGroups : List (List String)) : Bool :=
  let words := fields searchText
  wordGroups.all fun group =>
    group.any fun alternativeWord =>
      let checkWord := if s.caseSensitive then alternativeWord else strToLower alternativeWord
      words.any fun word => strContains (strToLower word) checkWord

/-- `PatternMatcher.matchesPattern`: dispatch on the pattern's `type`
string; unknown types match nothing. -/
def matchesPattern (s : Settings) (searchText : String) (p : Pattern) : Bool :=
  if p.type = "exact" then matchesExact s searchText p.phrases
  else if p.type = "combo" then matchesCombo s searchText p.words
  else if p.type = "required" then matchesRequired s searchText p.requiredWords
  else if p.type = "alternative" then matchesAlternative s searchText p.wordGroups
  else false

/-- `PatternMatcher.matchesRule`: a rule matches on its first matching
pattern, in pattern-list order. -/
def matchesRule (s : Settings) (searchText : String) (rule : InterruptRule) : Bool :=
  rule.patterns.any (matchesPattern s searchText)

/-- The matching loop of `PatternMatcher.DetectInterrupt`: fold the case
setting into the text, then return the first rule (in the iteration order
of the `Interrupts` map, given here as the list order) whose patterns
match. -/
def DetectInterrupt (s : Settings) (rules : List InterruptRule) (text : String) :
    Option InterruptRule :=
  let searchText := if s.caseSensitive then text else strToLower text
  rules.find? (matchesRule s searchText)

/- ## Hot reload of the pattern configuration (loadConfig / reloadConfigIfNeeded) -/

/-- `audio.PatternMatcher` state: the loaded configuration and the load
instant (milliseconds). -/
structure PatternMatcher where
  config : InterruptConfig
  lastLoad : Nat
deriving DecidableEq

/-- The file-system responses a reload can observe: the `os.Stat` result
(modification time or error), the `ioutil.ReadFile` result, the YAML
parse of the read bytes, and the current instant. -/
structure ReloadEnv where
  statResult : Except String Nat
  readResult : Except String (List Nat)
  parse : List Nat → Except String InterruptConfig
  now : Nat

/-- `PatternMatcher.loadConfig`: read the file, parse it, and only on
success replace the configuration and the load time. -/
def loadConfig (env : ReloadEnv) (m : PatternMatcher) :
    PatternMatcher × Except String Unit :=
  match env.readResult with
  | .error e => (m, .error ("failed to read config file: " ++ e))
  | .ok data =>
    match env.parse data with
    | .error e => (m, .error ("failed to parse config: " ++ e))
    | .ok config => ({ config := config, lastLoad := env.now }, .ok ())

/-- `PatternMatcher.reloadConfigIfNeeded`: when `reload_on_detection` is
set, stat the file and reload when its mtime is newer than the last
load. -/
def reloadConfigIfNeeded (env : ReloadEnv) (m : PatternMatcher) :
    PatternMatcher × Except String Unit :=
  if m.config.settings.reloadOnDetection then
    match env.statResult with
    | .error e => (m, .error e)
    | .ok modTime =>
      if m.lastLoad < modTime then loadConfig env m
      else (m, .ok ())
  else (m, .ok ())

/-- `PatternMatcher.DetectInterrupt` including its reload preamble: a
reload failure is logged and ignored, and detection proceeds on whatever
configuration the matcher then holds. -/
def DetectInterruptFull (env : ReloadEnv) (m : PatternMatcher) (text : String) :
    PatternMatcher × Option InterruptRule :=
  let m1 := (reloadConfigIfNeeded env m).1
  (m1, DetectInterrupt m1.config.settings (m1.config.interrupts.map Prod.snd) text)

/- ## Session interrupt lookup (Session.CheckForInterrupt) -/

/-- The `switch interruptRule.Name` of `Session.CheckForInterrupt`: map a
rule name back to an interrupt key, falling back to `"dnc"`. -/
def interruptKindForName (name : String) : String :=
  if name = "Do Not Call" then "dnc"
  else if name = "Not Interested" then "not_interested"
  else if name = "Robot Detection" then "robot"
  else if name = "Callback Request" then "callback"
  else "dnc"

/-- `Session.CheckForInterrupt` for a session whose pattern matcher is
present: run detection and translate the matched rule's name. -/
def CheckForInterrupt (s : Settings) (rules : List InterruptRule) (text : String) :
    String × Bool :=
  match DetectInterrupt s rules text with
  | some rule => (interruptKindForName rule.name, true)
  | none => ("", false)

/- ## Global timer (internal/flow/timer.go) -/

/-- `flow.GlobalTimer`, with the armed runtime timer modeled by its
expiry instant; instants and durations are milliseconds. -/
structure GlobalTimer where
  duration : Nat
  armed : Bool
  deadline : Nat
  lastReset : Nat
  resetDebounce : Nat
deriving DecidableEq

/-- `flow.NewGlobalTimer`: inactive, with the 500 ms reset debounce. -/
def NewGlobalTimer (duration : Nat) : GlobalTimer where
  duration := duration
  armed := false
  deadline := 0
  lastReset := 0
  resetDebounce := 500

/-- `GlobalTimer.IsActive`. -/
def GlobalTimer.IsActive (gt : GlobalTimer) : Bool := gt.armed

/-- `GlobalTimer.Stop`: disarm (idempotent). -/
def GlobalTimer.Stop (gt : GlobalTimer) : GlobalTimer := { gt with armed := false }

/-- `GlobalTimer.Start` at instant `now`: stop any armed timer, then arm
for the full duration. -/
def GlobalTimer.Start (gt : GlobalTimer) (now : Nat) : GlobalTimer :=
  let gt1 := if gt.armed then gt.Stop else gt
  { gt1 with armed := true, deadline := now + gt1.duration }

/-- `GlobalTimer.Reset` at instant `now`: within the debounce of the last
effective reset, do nothing; otherwise stop, start, and record `now`. -/
def GlobalTimer.Reset (gt : GlobalTimer) (now : Nat) : GlobalTimer :=
  if now - gt.lastReset < gt.resetDebounce then gt
  else
    let gt1 := if gt.armed then gt.Stop else gt
    let gt2 := gt1.Start now
    { gt2 with lastReset := now }

/-- Remaining duration of an armed timer at instant `now`. -/
def GlobalTimer.remaining (gt : GlobalTimer) (now : Nat) : Nat := gt.deadline - now

/- ## Flow engine data model (internal/flow/engine.go) -/

/-- `flow.Action` (named `FlowAction` here: Mathlib already declares a root-level `Action`). -/
structure FlowAction where
  type : String
  endpoint : String
  method : String
  message : String
  priority : String
  timeout : Int
  params : List (String × String)
deriving DecidableEq

/-- `flow.FlowNode`; the `transitions` map keeps its entries as an
association list. -/
structure FlowNode where
  id : String
  type : String
  content : String
  audioFile : String
  transitions : List (String × String)
  actions : List FlowAction
deriving DecidableEq

/-- `flow.FlowMetadata`. -/
structure FlowMetadata where
  name : String
  version : String
  description : String
deriving DecidableEq

/-- `flow.FlowConfig`. -/
structure FlowConfig where
  metadata : FlowMetadata
  nodes : List FlowNode
deriving DecidableEq

/-- Go map indexing `m[k]` on a `map[string]string`: the stored value, or
the zero value `""` when the key is absent. -/
def mapGetD (m : List (String × String)) (k : String) : String :=
  match m.find? (fun kv => kv.1 = k) with
  | some kv => kv.2
  | none => ""

/-- `FlowEngine.findNode`: first node of the configuration with the given
id. -/
def findNode (cfg : FlowConfig) (id : String) : Option FlowNode :=
  cfg.nodes.find? (fun node => node.id = id)

/-- `FlowEngine.handleTimeout`, reduced to the node the engine enters:
nothing when no node is being waited on; otherwise the node found under
the `timeout` transition label, with the conventional `"end_call"` id
substituted when the label is absent (Go map zero value `""`).  `none`
also results when the target id names no node (the engine then stays
put). -/
def handleTimeout (cfg : FlowConfig) (waitingFor : Option FlowNode) : Option FlowNode :=
  match waitingFor with
  | none => none
  | some node =>
    let nextNodeID := mapGetD node.transitions "timeout"
    let nextNodeID := if nextNodeID = "" then "end_call" else nextNodeID
    findNode cfg nextNodeID

/-- The `ra_call_control` reason code the engine records for an interrupt
kind (the `switch interruptType` of `waitForResponse`). -/
def reasonForInterrupt (kind : String) : String :=
  if kind = "dnc" then "DNC"
  else if kind = "not_interested" then "NI"
  else if kind = "robot" then "DNQ"
  else if kind = "amd" then "A"
  else if kind = "callback" then "CALLBK"
  else "DNQ"

/-- What one delivery of a `TranscriptionResult` to the question-node wait
loop of `FlowEngine.waitForResponse` does. -/
inductive WaitStepResult where
  /-- The loop keeps waiting; the global timer is now in the given state. -/
  | waiting (timer : GlobalTimer)
  /-- A final transcript matched an interrupt rule: the engine records the
  reason code and dispatches the interrupt. -/
  | interrupted (kind : String) (reason : String)
  /-- A final transcript classified to a transition: the engine stops the
  timer and enters the target node. -/
  | transitioned (timer : GlobalTimer) (next : FlowNode)
deriving DecidableEq

/-- The transcript branch of the `select` loop in
`FlowEngine.waitForResponse`: partial results reset the timer only when
it is armed and the text is longer than 10 bytes; final results check for
interrupts, then classify and look up a transition, falling back to
`default`, and keep waiting when no target node resolves. -/
def processTranscript (cfg : FlowConfig) (node : FlowNode) (timer : GlobalTimer)
    (now : Nat) (checkInterrupt : String → String × Bool) (rc : ResponseClassifier)
    (text : String) (isFinal : Bool) : WaitStepResult :=
  if !isFinal then
    .waiting (if timer.IsActive && decide (10 < text.utf8ByteSize) then timer.Reset now
              else timer)
  else
    let ci := checkInterrupt text
    if ci.2 then .interrupted ci.1 (reasonForInterrupt ci.1)
    else
      let responseType := ClassifyResponse rc text
      let nextNodeID := mapGetD node.transitions responseType.str
      let nextNodeID := if nextNodeID = "" then mapGetD node.transitions "default"
                        else nextNodeID
      if nextNodeID = "" then .waiting timer
      else
        match findNode cfg nextNodeID with
        | some nextNode => .transitioned timer.Stop nextNode
        | none => .waiting timer

/- ## Audio player (unnamed audio package file, player) -/

/-- `audiosocket.DefaultSlinChunkSize`: 320 bytes, 20 ms at 8 kHz 16-bit
mono. -/
def DefaultSlinChunkSize : Nat := 320

/-- The chunk loop of `Player.PlayAmbientAudioWithPause` when neither the
pause nor the stop signal ever fires: the successive slices
`audioData[i:min(i+320, len)]` it writes. -/
def sendChunks (audioData : List Nat) : List (List Nat) :=
  if audioData.isEmpty then []
  else audioData.take DefaultSlinChunkSize :: sendChunks (audioData.drop DefaultSlinChunkSize)
termination_by audioData.length
decreasing_by
  simp only [List.length_drop]
  rename_i h
  have hpos : 0 < audioData.length := by
    cases audioData
    · simp at h
    · simp
  simp [DefaultSlinChunkSize]
  omega

/- ## WAV loading (Player.loadWAVFile) -/

/-- The ASCII bytes of `"RIFF"`. -/
def riffId : List Nat := [82, 73, 70, 70]

/-- The ASCII bytes of `"WAVE"`. -/
def waveId : List Nat := [87, 65, 86, 69]

/-- The ASCII bytes of `"data"`. -/
def dataId : List Nat := [100, 97, 116, 97]

/-- `file[i : i+n]`: `n` bytes of a byte list starting at offset `i`. -/
def bytesAt (file : List Nat) (i n : Nat) : List Nat := (file.drop i).take n

/-- `Player.loadWAVFile` over the file's bytes: read a fixed 44-byte
header, verify `RIFF`/`WAVE`, scan offsets `12 ≤ i < 40` of the header
for the literal `"data"`, and return the bytes from `i+8` on (offset 44
when the scan finds nothing). -/
def loadWAVFile (file : List Nat) : Except String (List Nat) :=
  if file.length < 44 then .error "failed to read WAV header"
  else
    let header := file.take 44
    if bytesAt header 0 4 ≠ riffId ∨ bytesAt header 8 4 ≠ waveId then
      .error "not a valid WAV file"
    else
      let dataStart :=
        match (List.range' 12 28).find? (fun i => bytesAt header i 4 = dataId) with
        | some i => i + 8
        | none => 44
      .ok (file.drop dataStart)

/- ## Definitions written from the claims' own words (for refinement
comparisons) -/

/-- Claim C2's characterization, word for word: every group contains at
least one word that is a (plain) substring of some whitespace-separated
token of the text. -/
def requiredClaimC2 (text : String) (groups : List (List String)) : Bool :=
  groups.all fun group =>
    group.any fun w => (fields text).any fun tok => strContains tok w

/-- The amended C2 characterization: every group has a word whose
settings-folded form (lower-cased unless `case_sensitive`) occurs in the
lower-cased form of some whitespace-separated token. -/
def requiredAmendedC2 (s : Settings) (text : String) (groups : List (List String)) : Bool :=
  groups.all fun group =>
    group.any fun w =>
      (fields text).any fun tok =>
        strContains (strToLower tok) (if s.caseSensitive then w else strToLower w)

/-- Claim C3's loader, word for word: verify `RIFF`/`WAVE`, then locate
the `data` id by scanning the whole file from offset 12 wherever it
occurs, and keep the bytes after that chunk header. -/
def loadWAVFileClaimC3 (file : List Nat) : Option (List Nat) :=
  if 44 ≤ file.length ∧ bytesAt file 0 4 = riffId ∧ bytesAt file 8 4 = waveId then
    match (List.range' 12 file.length).find? (fun i => bytesAt file i 4 = dataId) with
    | some i => some (file.drop (i + 8))
    | none => none
  else none

/-- The amended C3 data-start rule: first occurrence of `"data"` at the
offsets `12 ≤ i < 40` the code actually scans, offset 44 otherwise. -/
def dataStartAmendedC3 (file : List Nat) : Nat :=
  match (List.range' 12 28).find? (fun i => bytesAt file i 4 = dataId) with
  | some i => i + 8
  | none => 44

/- ## Concrete fixtures used by closed theorems -/

/-- An `exact` pattern on the phrase `"stop calling"`. -/
def patternStopCalling : Pattern where
  type := "exact"
  phrases := ["stop calling"]
  words := []
  requiredWords := []
  wordGroups := []

/-- A priority-2 rule matching `"stop calling"`. -/
def ruleNotInterested : InterruptRule where
  name := "Not Interested"
  description := "prospect declines"
  audioFile := "not_interested.wav"
  priority := 2
  patterns := [patternStopCalling]

/-- A priority-1 rule matching the same phrase. -/
def ruleDoNotCall : InterruptRule where
  name := "Do Not Call"
  description := "do-not-call request"
  audioFile := "dnc.wav"
  priority := 1
  patterns := [patternStopCalling]

/-- A rule whose name is none of the four the session recognizes. -/
def ruleAnsweringMachine : InterruptRule where
  name := "Answering Machine"
  description := "machine beep"
  audioFile := "amd.wav"
  priority := 0
  patterns := [{ type := "exact", phrases := ["beep"], words := [],
                 requiredWords := [], wordGroups := [] }]

/-- Case-insensitive settings, as the shipped configuration uses. -/
def settingsLowercase : Settings where
  caseSensitive := false
  partialWordMatch := true
  maxWordsBetween := 2
  reloadOnDetection := false

/-- Case-insensitive settings with hot reload enabled. -/
def settingsReload : Settings where
  caseSensitive := false
  partialWordMatch := true
  maxWordsBetween := 2
  reloadOnDetection := true

/-- A 52-byte RIFF/WAVE file whose `"data"` id first occurs at offset 40,
just past the offsets the loader scans: 4 size bytes and the payload
`[1,2,3,4]` follow it. -/
def wavCexFile : List Nat :=
  riffId ++ [44, 0, 0, 0] ++ waveId ++ List.replicate 28 0 ++ dataId ++ [4, 0, 0, 0] ++ [1, 2, 3, 4]

/-- A canonical 48-byte WAV file: `"data"` at offset 36, payload
`[9,9,9,9]` from offset 44. -/
def wavOkFile : List Nat :=
  riffId ++ [36, 0, 0, 0] ++ waveId ++ List.replicate 24 0 ++ dataId ++ [4, 0, 0, 0] ++ [9, 9, 9, 9]

/-- A matcher whose loaded configuration wants reload-on-detection. -/
def matcherFixtureC9 : PatternMatcher where
  config := { interrupts := [("dnc", ruleDoNotCall)], settings := settingsReload }
  lastLoad := 0

/-- A reload environment whose file read fails. -/
def reloadEnvFixtureC9 : ReloadEnv where
  statResult := .ok 10
  readResult := .error "no such file"
  parse := fun _ => .error "never reached"
  now := 7

/- ## Claim theorems -/

/-- C1: `DetectInterrupt` returns the first match in the `Interrupts`-map
iteration order, not the match of minimum priority: under the iteration
order that presents the priority-2 rule first, the priority-2 rule is
returned although the priority-1 rule also matches, and the reversed
iteration order changes the answer. -/
theorem detectInterrupt_not_priority_ordered :
    DetectInterrupt settingsLowercase [ruleNotInterested, ruleDoNotCall]
        "Please STOP calling me" = some ruleNotInterested ∧
    matchesRule settingsLowercase (strToLower "Please STOP calling me") ruleDoNotCall = true ∧
    ruleDoNotCall.priority < ruleNotInterested.priority ∧
    DetectInterrupt settingsLowercase [ruleDoNotCall, ruleNotInterested]
        "Please STOP calling me" = some ruleDoNotCall := by
  refine ⟨by decide, by decide, by decide, by decide⟩

/-- C2 counterexample: with the shipped case-insensitive settings, the
text `"YES"` and the single group `["yes"]`, both evaluators succeed while
the claim's plain-substring characterization fails (no word of the group
is a literal substring of the token `"YES"`). -/
theorem requiredClaimC2_mismatch :
    matchesRequired settingsLowercase "YES" [["yes"]] = true ∧
    matchesAlternative settingsLowercase "YES" [["yes"]] = true ∧
    requiredClaimC2 "YES" [["yes"]] = false := by
  refine ⟨by decide, by decide, by decide⟩

/-- C2 (amended): for every settings object, text and group list, the
`required` and `alternative` evaluators agree, and both succeed exactly
when every group has a word whose settings-folded form is a substring of
the lower-cased form of some whitespace-separated token of the text. -/
theorem matchesRequired_eq_matchesAlternative (s : Settings) (text : String)
    (groups : List (List String)) :
    matchesRequired s text groups = matchesAlternative s text groups ∧
    matchesRequired s text groups = requiredAmendedC2 s text groups :=
  ⟨rfl, rfl⟩

/-- C7: `ClassifyResponse` always yields one of the three labels, and a
text whose lower-cased trimmed form contains both a negative and a
positive keyword is classified negative (negatives are checked first). -/
theorem classifyResponse_exclusive_negative_first (rc : ResponseClassifier) (text : String) :
    (ClassifyResponse rc text = .positive ∨ ClassifyResponse rc text = .negative ∨
      ClassifyResponse rc text = .unknown) ∧
    ((rc.negativeKeywords.any fun k => strContains (strToLower (trimSpace text)) k) = true →
     (rc.positiveKeywords.any fun k => strContains (strToLower (trimSpace text)) k) = true →
     ClassifyResponse rc text = .negative) := by
  constructor
  · cases h : ClassifyResponse rc text
    · exact Or.inl rfl
    · exact Or.inr (Or.inl rfl)
    · exact Or.inr (Or.inr rfl)
  · intro hneg _hpos
    simp [ClassifyResponse, hneg]

/-- C4: a `Reset` within the debounce of the previous effective reset
leaves the timer state (hence any armed timer's remaining duration)
unchanged; otherwise it arms a fresh timer with the full duration and
records the reset instant; the constructor fixes the debounce at
500 ms. -/
theorem timerReset_debounced (gt : GlobalTimer) (now : Nat) :
    (now - gt.lastReset < gt.resetDebounce → gt.Reset now = gt) ∧
    (gt.resetDebounce ≤ now - gt.lastReset →
      gt.Reset now =
        { gt with armed := true, deadline := now + gt.duration, lastReset := now }) ∧
    (∀ d, (NewGlobalTimer d).resetDebounce = 500) := by
  refine ⟨fun h => ?_, fun h => ?_, fun d => rfl⟩
  · simp [GlobalTimer.Reset, h]
  · have hn : ¬ now - gt.lastReset < gt.resetDebounce := by omega
    cases gt with
    | mk duration armed deadline lastReset resetDebounce =>
      cases armed <;>
        simp [GlobalTimer.Reset, GlobalTimer.Start, GlobalTimer.Stop, hn]

/-- C5: during a question-node wait, a non-final transcript resets the
global timer exactly when the timer is armed and the text is longer than
10 bytes; otherwise the wait continues with the timer untouched. -/
theorem waitPartial_reset_condition (cfg : FlowConfig) (node : FlowNode)
    (timer : GlobalTimer) (now : Nat) (checkInterrupt : String → String × Bool)
    (rc : ResponseClassifier) (text : String) :
    (timer.IsActive = true → 10 < text.utf8ByteSize →
      processTranscript cfg node timer now checkInterrupt rc text false =
        .waiting (timer.Reset now)) ∧
    (¬ (timer.IsActive = true ∧ 10 < text.utf8ByteSize) →
      processTranscript cfg node timer now checkInterrupt rc text false =
        .waiting timer) := by
  constructor
  · intro h1 h2
    simp [processTranscript, h1, h2]
  · intro h
    have hfalse : (timer.IsActive && decide (10 < text.utf8ByteSize)) = false := by
      cases hA : timer.IsActive
      · simp
      · simp only [Bool.true_and, decide_eq_false_iff_not]
        exact fun h2 => h ⟨hA, h2⟩
    simp [processTranscript, hfalse]

/-- C6: on a question-node timeout the engine resolves the waiting node's
`timeout` transition, substitutes the conventional `"end_call"` id when
that label is absent, and any node it enters is a node of the flow
configuration. -/
theorem handleTimeout_transition (cfg : FlowConfig) (node : FlowNode) :
    (node.transitions.find? (fun kv => kv.1 = "timeout") = none →
      handleTimeout cfg (some node) = findNode cfg "end_call") ∧
    (∀ kv, node.transitions.find? (fun kv => kv.1 = "timeout") = some kv → kv.2 ≠ "" →
      handleTimeout cfg (some node) = findNode cfg kv.2) ∧
    (∀ n, handleTimeout cfg (some node) = some n → n ∈ cfg.nodes) := by
  refine ⟨fun h => ?_, fun kv h hne => ?_, fun n h => ?_⟩
  · simp [handleTimeout, mapGetD, h]
  · simp [handleTimeout, mapGetD, h, hne]
  · simp only [handleTimeout] at h
    exact List.mem_of_find?_eq_some h

/- ## Chunking lemmas for the player loop -/

/-- An empty payload sends no chunks (the loop body never runs). -/
theorem sendChunks_empty : sendChunks [] = [] := by
  unfold sendChunks
  simp

/-- Unfolding of the chunk loop on a non-empty payload. -/
theorem sendChunks_ne_empty (data : List Nat) (h : ¬ data.isEmpty) :
    sendChunks data =
      data.take DefaultSlinChunkSize :: sendChunks (data.drop DefaultSlinChunkSize) := by
  conv_lhs => rw [sendChunks]
  simp [h]

/-- The chunks sent concatenate back to the whole payload. -/
theorem sendChunks_join (data : List Nat) : (sendChunks data).flatten = data := by
  induction data using sendChunks.induct with
  | case1 data h =>
    rw [List.isEmpty_iff] at h
    subst h
    simp [sendChunks_empty]
  | case2 data h ih =>
    rw [sendChunks_ne_empty data h, List.flatten_cons, ih, List.take_append_drop]

/-- The number of chunks is the ceiling of the payload length over 320. -/
theorem sendChunks_length (data : List Nat) :
    (sendChunks data).length =
      (data.length + (DefaultSlinChunkSize - 1)) / DefaultSlinChunkSize := by
  induction data using sendChunks.induct with
  | case1 data h =>
    rw [List.isEmpty_iff] at h
    subst h
    rw [sendChunks_empty]
    decide
  | case2 data h ih =>
    have hpos : 0 < data.length := by
      cases data
      · simp at h
      · simp
    rw [sendChunks_ne_empty data h, List.length_cons, ih, List.length_drop]
    simp only [DefaultSlinChunkSize]
    omega

/-- Every chunk except possibly the last carries exactly 320 bytes. -/
theorem sendChunks_dropLast (data : List Nat) :
    ∀ chunk ∈ (sendChunks data).dropLast, chunk.length = DefaultSlinChunkSize := by
  induction data using sendChunks.induct with
  | case1 data h =>
    rw [List.isEmpty_iff] at h
    subst h
    simp [sendChunks_empty]
  | case2 data h ih =>
    rw [sendChunks_ne_empty data h]
    cases hrest : sendChunks (data.drop DefaultSlinChunkSize) with
    | nil => simp
    | cons r rs =>
      intro chunk hchunk
      rw [List.dropLast_cons_of_ne_nil (by simp), ← hrest] at hchunk
      rcases List.mem_cons.mp hchunk with hc | hc
      · subst hc
        have hlen : DefaultSlinChunkSize < data.length ∨ data.drop DefaultSlinChunkSize = [] := by
          by_cases hd : DefaultSlinChunkSize < data.length
          · exact Or.inl hd
          · exact Or.inr (by simp [List.drop_eq_nil_iff]; omega)
        rcases hlen with hd | hd
        · simp [List.length_take]
          omega
        · rw [hd, sendChunks_empty] at hrest
          exact absurd hrest (by simp)
      · exact ih chunk hc

/-- C8: an uninterrupted playback of a non-empty cached payload emits
exactly `ceil(L/320)` chunks, their payloads concatenate to the cached
bytes, every chunk but possibly the last is exactly 320 bytes, and the
trailing (possibly short) chunk is still transmitted. -/
theorem playback_chunking (data : List Nat) (h : data ≠ []) :
    (sendChunks data).length =
        (data.length + (DefaultSlinChunkSize - 1)) / DefaultSlinChunkSize ∧
    (sendChunks data).flatten = data ∧
    (∀ chunk ∈ (sendChunks data).dropLast, chunk.length = DefaultSlinChunkSize) ∧
    sendChunks data ≠ [] := by
  refine ⟨sendChunks_length data, sendChunks_join data, sendChunks_dropLast data, ?_⟩
  rw [sendChunks_ne_empty data (by simpa using h)]
  simp

/-- C8 witness: the spec's 641-byte scenario, two full chunks and a
1-byte tail. -/
theorem playback_chunking_example :
    List.replicate 641 (0 : Nat) ≠ [] ∧
    ((sendChunks (List.replicate 641 (0 : Nat))).length =
        ((List.replicate 641 (0 : Nat)).length + (DefaultSlinChunkSize - 1)) /
          DefaultSlinChunkSize ∧
      (sendChunks (List.replicate 641 (0 : Nat))).flatten = List.replicate 641 (0 : Nat) ∧
      (∀ chunk ∈ (sendChunks (List.replicate 641 (0 : Nat))).dropLast,
        chunk.length = DefaultSlinChunkSize) ∧
      sendChunks (List.replicate 641 (0 : Nat)) ≠ []) :=
  ⟨by decide, playback_chunking _ (by decide)⟩

/-- On a read or parse failure `loadConfig` leaves the matcher state
untouched. -/
theorem loadConfig_error_fst (env : ReloadEnv) (m : PatternMatcher) (e : String)
    (h : (loadConfig env m).2 = .error e) : (loadConfig env m).1 = m := by
  obtain ⟨stat, readR, parse, now⟩ := env
  unfold loadConfig at h ⊢
  cases readR with
  | error e2 => simp
  | ok data =>
    cases hp : parse data with
    | error e2 => simp [hp]
    | ok cfg => simp [hp] at h

/-- On any failing step `reloadConfigIfNeeded` leaves the matcher state
untouched. -/
theorem reload_error_fst (env : ReloadEnv) (m : PatternMatcher) (e : String)
    (h : (reloadConfigIfNeeded env m).2 = .error e) : (reloadConfigIfNeeded env m).1 = m := by
  obtain ⟨stat, readR, parse, now⟩ := env
  unfold reloadConfigIfNeeded loadConfig at h ⊢
  by_cases hb : m.config.settings.reloadOnDetection
  · cases stat with
    | error e2 => simp [hb]
    | ok modTime =>
      by_cases hm : m.lastLoad < modTime
      · cases readR with
        | error e2 => simp [hb, hm]
        | ok data =>
          cases hp : parse data with
          | error e2 => simp [hb, hm, hp]
          | ok cfg => simp [hb, hm, hp] at h
      · simp [hb, hm] at h
  · simp [hb] at h

/-- C9: when a hot reload fails at any step, detection proceeds with the
previously loaded configuration: the matcher's rules and settings are
unchanged and `DetectInterrupt` answers from the old rule set. -/
theorem reloadFailure_keeps_rules (env : ReloadEnv) (m : PatternMatcher) (text : String)
    (e : String) (h : (reloadConfigIfNeeded env m).2 = .error e) :
    (DetectInterruptFull env m text).1.config = m.config ∧
    (DetectInterruptFull env m text).2 =
      DetectInterrupt m.config.settings (m.config.interrupts.map Prod.snd) text := by
  have hfst := reload_error_fst env m e h
  constructor
  · simp [DetectInterruptFull, hfst]
  · simp [DetectInterruptFull, hfst]

/-- C9 witness: a reload whose file read fails keeps the fixture's single
rule live. -/
theorem reloadFailure_keeps_rules_example :
    (reloadConfigIfNeeded reloadEnvFixtureC9 matcherFixtureC9).2 =
        Except.error "failed to read config file: no such file" ∧
    ((DetectInterruptFull reloadEnvFixtureC9 matcherFixtureC9 "hello").1.config =
        matcherFixtureC9.config ∧
      (DetectInterruptFull reloadEnvFixtureC9 matcherFixtureC9 "hello").2 =
        DetectInterrupt matcherFixtureC9.config.settings
          (matcherFixtureC9.config.interrupts.map Prod.snd) "hello") :=
  ⟨rfl, reloadFailure_keeps_rules _ _ _ _ rfl⟩

/-- C10: whenever the matcher returns a rule, the session reports
`found = true` with a kind computed from the rule's name alone, and every
unrecognized name is reported as `"dnc"`. -/
theorem checkForInterrupt_kind (s : Settings) (rules : List InterruptRule) (text : String)
    (rule : InterruptRule) (h : DetectInterrupt s rules text = some rule) :
    CheckForInterrupt s rules text = (interruptKindForName rule.name, true) ∧
    (rule.name ∉ (["Do Not Call", "Not Interested", "Robot Detection",
        "Callback Request"] : List String) →
      interruptKindForName rule.name = "dnc") := by
  constructor
  · unfold CheckForInterrupt
    rw [h]
  · intro hn
    simp only [List.mem_cons, List.not_mem_nil, or_false, not_or] at hn
    obtain ⟨h1, h2, h3, h4⟩ := hn
    simp [interruptKindForName, h1, h2, h3, h4]

/-- C10 witness: a rule named `"Answering Machine"` is reported as a
`"dnc"` interrupt. -/
theorem checkForInterrupt_kind_example :
    DetectInterrupt settingsLowercase [ruleAnsweringMachine] "beep" =
        some ruleAnsweringMachine ∧
    (CheckForInterrupt settingsLowercase [ruleAnsweringMachine] "beep" =
        (interruptKindForName ruleAnsweringMachine.name, true) ∧
      (ruleAnsweringMachine.name ∉ (["Do Not Call", "Not Interested", "Robot Detection",
          "Callback Request"] : List String) →
        interruptKindForName ruleAnsweringMachine.name = "dnc")) :=
  ⟨by decide, checkForInterrupt_kind _ _ _ _ (by decide)⟩

/- ## WAV loader lemmas -/

/-- Reading a slice that lies inside a prefix reads the same bytes as the
whole file. -/
theorem bytesAt_take (file : List Nat) (i n m : Nat) (h : i + n ≤ m) :
    bytesAt (file.take m) i n = bytesAt file i n := by
  unfold bytesAt
  rw [List.drop_take, List.take_take]
  congr 1
  omega

/-- `find?` only looks at the predicate's values on the list. -/
theorem find?_congr_on (l : List Nat) (p q : Nat → Bool) (h : ∀ i ∈ l, p i = q i) :
    l.find? p = l.find? q := by
  induction l with
  | nil => rfl
  | cons a t ih =>
    rw [List.find?_cons, List.find?_cons, h a (by simp)]
    cases q a
    · exact ih fun i hi => h i (by simp [hi])
    · rfl

/-- C3 counterexample: on the 52-byte file whose `"data"` id first occurs
at offset 40, the loader keeps the bytes from offset 44 (the chunk-size
bytes included), not the bytes after the `data` chunk header as the
claim's whole-file scan would. -/
theorem loadWAVFile_bounded_scan_mismatch :
    loadWAVFile wavCexFile = Except.ok [4, 0, 0, 0, 1, 2, 3, 4] ∧
    loadWAVFileClaimC3 wavCexFile = some [1, 2, 3, 4] ∧
    ([4, 0, 0, 0, 1, 2, 3, 4] : List Nat) ≠ [1, 2, 3, 4] := by
  refine ⟨by rfl, by decide, by decide⟩

/-- C3 (amended): on a file of at least 44 bytes with a valid RIFF/WAVE
header, the cache stores the bytes from offset `i + 8` where `i` is the
first offset in `12 ≤ i < 40` at which `"data"` occurs, and from offset
44 when no such offset exists. -/
theorem loadWAVFile_dataStart (file : List Nat) (h44 : 44 ≤ file.length)
    (hriff : bytesAt file 0 4 = riffId) (hwave : bytesAt file 8 4 = waveId) :
    loadWAVFile file = Except.ok (file.drop (dataStartAmendedC3 file)) := by
  unfold loadWAVFile
  rw [if_neg (by omega)]
  have hr : bytesAt (file.take 44) 0 4 = riffId := by
    rw [bytesAt_take file 0 4 44 (by norm_num)]
    exact hriff
  have hw : bytesAt (file.take 44) 8 4 = waveId := by
    rw [bytesAt_take file 8 4 44 (by norm_num)]
    exact hwave
  rw [if_neg (by push_neg; exact ⟨hr, hw⟩)]
  have hfind : ((List.range' 12 28).find? fun i => bytesAt (file.take 44) i 4 = dataId) =
      ((List.range' 12 28).find? fun i => bytesAt file i 4 = dataId) := by
    apply find?_congr_on
    intro i hi
    have hle : i + 4 ≤ 44 := by
      have := List.mem_range'_1.mp hi
      omega
    simp [bytesAt_take file i 4 44 hle]
  rw [hfind]
  rfl

/-- C3 witness: a canonical header with `"data"` at offset 36 stores
exactly the four payload bytes from offset 44. -/
theorem loadWAVFile_dataStart_example :
    44 ≤ wavOkFile.length ∧ bytesAt wavOkFile 0 4 = riffId ∧
    bytesAt wavOkFile 8 4 = waveId ∧
    loadWAVFile wavOkFile = Except.ok (wavOkFile.drop (dataStartAmendedC3 wavOkFile)) :=
  ⟨by decide, by decide, by decide,
    loadWAVFile_dataStart _ (by decide) (by decide) (by decide)⟩
